import Mathlib

/-!
Verification of the crawlr entity/pickup core against its specification.

The JavaScript modules under `src/libs` are shallowly embedded below:
mutable objects become explicit state records, JS numbers become exact
rationals (each numeric literal is read as the exact rational it denotes;
`Math.PI` is embedded as the IEEE-754 double nearest pi), JS `Map`s become
association lists, and every observable side effect (event-bus emission,
coin scattering, resource disposal, `addSegment` invocations) is returned
as an explicit log.  Rendering, audio, DOM and physics-engine internals
are outside the model; where a definition elides such a detail a comment
says so.
-/

/-- Three-component rational vector, standing in for a `THREE.Vector3`. -/
structure Vec3 where
  x : ℚ
  y : ℚ
  z : ℚ
  deriving DecidableEq, Repr

/-- Domain events published on the event bus (EventBus.js topics used by the
embedded modules). -/
inductive GEvent where
  | entityDied (id killedBy : String) (position : Vec3) (tailLength : ℕ)
  | entitySpawned (id : String) (position : Vec3) (isBot : Bool)
  | tailBurned (entityId : String) (segmentsBurned : ℕ) (newLength : ℕ)
  | entitySprinting (id : String) (active : Bool)
  | pickupCollected (ptype : String) (entityId : String) (position : Option Vec3)
  | ringJumped (entityId : String) (segmentsGained : ℕ) (total : ℕ)
  | ringHit (entityId : String) (segmentsLost : ℕ) (remaining : ℕ)
  | ringShocked (entityId : String)
  | playerFreeze (frozen : Bool)
  deriving DecidableEq, Repr

/-! Configuration constants from PhysicsConfig.js. -/

/-- PhysicsConfig.js: `TAIL_SEGMENT_SPACING = 5`. -/
def TAIL_SEGMENT_SPACING : ℕ := 5

/-- PhysicsConfig.js: `TAIL_MAX_SEGMENTS = 50`. -/
def TAIL_MAX_SEGMENTS : ℕ := 50

/-- PhysicsConfig.js: `TAIL_SCALE_FACTOR = 0.04`. -/
def TAIL_SCALE_FACTOR : ℚ := 4/100

/-- PhysicsConfig.js: `TAIL_MIN_SCALE = 0.5`. -/
def TAIL_MIN_SCALE : ℚ := 1/2

/-- PhysicsConfig.js: `SPRINT_BURN_INTERVAL = 1.5` seconds. -/
def SPRINT_BURN_INTERVAL : ℚ := 3/2

/-- PhysicsConfig.js: `BOT_VISION_RANGE = 20`. -/
def BOT_VISION_RANGE : ℚ := 20

/-- PhysicsConfig.js: `BOT_DANGER_RANGE = 8`. -/
def BOT_DANGER_RANGE : ℚ := 8

/-- PhysicsConfig.js: `RING_STAMINA_PENALTY = 3` tail segments. -/
def RING_STAMINA_PENALTY : ℕ := 3

/-- PhysicsConfig.js: `COIN_SPAWN_AREA_XZ = GROUND_SIZE_VISUAL * 0.95` with
`GROUND_SIZE_VISUAL = 250`. -/
def COIN_SPAWN_AREA_XZ : ℚ := 250 * (95/100)

/-- The exact rational value of the IEEE-754 double `Math.PI`
(3.141592653589793...), used by BotManager.js for angle wrapping. -/
def MATH_PI : ℚ := 884279719003555 / 281474976710656

/-- RingPickup.js: `HIT_COOLDOWN = 1.5` seconds per entity. -/
def HIT_COOLDOWN : ℚ := 3/2

/-- RingPickup.js: `FADE_OUT_DURATION = 0.8` seconds. -/
def FADE_OUT_DURATION : ℚ := 4/5

/-- DeathManager.js: `INVULNERABILITY_DURATION = 2.0` seconds. -/
def INVULNERABILITY_DURATION : ℚ := 2

/-- DeathManager.js: `BLINK_INTERVAL = 0.15` seconds. -/
def BLINK_INTERVAL : ℚ := 3/20

/-- DeathManager.js: `MAX_SCATTERED_COINS = 10`. -/
def MAX_SCATTERED_COINS : ℕ := 10

/-! Association lists model JS `Map` objects (which never hold duplicate
keys): `get`, `set` and `delete`. -/

/-- Model of `Map.get`: first binding of the key, if any. -/
def alistLookup {α β : Type} [DecidableEq α] : List (α × β) → α → Option β
  | [], _ => none
  | (k, v) :: rest, key => if key = k then some v else alistLookup rest key

/-- Model of `Map.set`: replace the binding in place, or append a new one. -/
def alistInsert {α β : Type} [DecidableEq α] : List (α × β) → α → β → List (α × β)
  | [], key, v => [(key, v)]
  | (k, w) :: rest, key, v =>
      if key = k then (key, v) :: rest else (k, w) :: alistInsert rest key v

/-- Model of `Map.delete`: drop every binding of the key (a JS `Map` holds at
most one). -/
def alistErase {α β : Type} [DecidableEq α] : List (α × β) → α → List (α × β)
  | [], _ => []
  | (k, v) :: rest, key =>
      if k = key then alistErase rest key else (k, v) :: alistErase rest key

/-! ## Tail.js — SnakeTail -/

/-- One tail segment: the visible mesh's position and scale plus its index
(`userData.segmentIndex`).  The glow mesh, random yaw and the Rapier sensor
body are presentation/physics resources not tracked further. -/
structure TailSeg where
  pos : Vec3
  scale : ℚ
  segmentIndex : ℕ
  deriving DecidableEq, Repr

/-- Per-instance glow snapshot (`this.glowState`). -/
structure GlowState where
  isGlowing : Bool
  intensity : ℚ
  color : ℕ
  deriving DecidableEq, Repr

/-- State of one `SnakeTail` instance.  The flat `Float32Array` ring buffer
is modelled as a function from slot number to the stored vector
(`positionHistory[slot*3 .. slot*3+2]`). -/
structure SnakeTail where
  entityId : String
  color : ℕ
  ownerScale : Option ℚ
  maxHistoryLength : ℕ
  positionHistory : ℕ → Vec3
  historyHead : ℕ
  historyCount : ℕ
  segments : List TailSeg
  glowState : GlowState

/-- The `SnakeTail` constructor: empty segment list, zeroed ring buffer of
capacity 1000 (scene/world/renderer references are external resources). -/
def SnakeTail.new (entityId : String) (color : ℕ) (ownerScale : Option ℚ) : SnakeTail :=
  { entityId := entityId
    color := color
    ownerScale := ownerScale
    maxHistoryLength := 1000
    positionHistory := fun _ => ⟨0, 0, 0⟩
    historyHead := 0
    historyCount := 0
    segments := []
    glowState := { isGlowing := false, intensity := 0, color := color } }

/-- Pointwise update of the ring buffer (one write into the backing array). -/
def writeSlot (f : ℕ → Vec3) (i : ℕ) (v : Vec3) : ℕ → Vec3 :=
  fun j => if j = i then v else f j

/-- Tail.js `updatePositionHistory`: advance the write head modulo capacity,
write the position there, and saturate `historyCount` at capacity. -/
def SnakeTail.updatePositionHistory (t : SnakeTail) (p : Vec3) : SnakeTail :=
  let head' := (t.historyHead + 1) % t.maxHistoryLength
  { t with
    historyHead := head'
    positionHistory := writeSlot t.positionHistory head' p
    historyCount :=
      if t.historyCount < t.maxHistoryLength then t.historyCount + 1 else t.historyCount }

/-- Tail.js module-level `_tempVec3`, the single pre-allocated vector shared
by every `SnakeTail` instance. -/
structure TailModuleTemps where
  tempVec3 : Vec3
  deriving DecidableEq, Repr

/-- A reference to a module-level shared vector (the only one is
`_tempVec3`). -/
inductive SharedVecRef where
  | tempVec3Ref
  deriving DecidableEq, Repr

/-- Dereference a shared-vector reference in the current module state. -/
def derefVec (m : TailModuleTemps) : SharedVecRef → Vec3
  | .tempVec3Ref => m.tempVec3

/-- Tail.js `getHistoryPosition(index)`: `null` when `index ≥ historyCount`,
otherwise it fills the module-level `_tempVec3` from the ring-buffer slot
`(historyHead - index + maxHistoryLength) % maxHistoryLength` and returns
that shared vector.  The module temp state is threaded explicitly. -/
def SnakeTail.getHistoryPosition (m : TailModuleTemps) (t : SnakeTail) (index : ℕ) :
    Option SharedVecRef × TailModuleTemps :=
  if t.historyCount ≤ index then (none, m)
  else
    let slot := (t.historyHead + t.maxHistoryLength - index) % t.maxHistoryLength
    (some SharedVecRef.tempVec3Ref, { tempVec3 := t.positionHistory slot })

/-- Value read from the history: call `getHistoryPosition` and immediately
dereference the returned shared vector. -/
def SnakeTail.getHistoryValue (t : SnakeTail) (index : ℕ) : Option Vec3 :=
  let r := SnakeTail.getHistoryPosition ⟨⟨0, 0, 0⟩⟩ t index
  r.1.map (fun ref => derefVec r.2 ref)

/-- Tail.js `addSegment(initialPosition)`: reject with `null` at
`TAIL_MAX_SEGMENTS`, otherwise append a segment whose scale is
`max(TAIL_MIN_SCALE, 1 - idx*TAIL_SCALE_FACTOR) * ownerScale`.  The glow
mesh, random yaw, sensor collider and particle burst are external
resources. -/
def SnakeTail.addSegment (t : SnakeTail) (initialPosition : Vec3) :
    Option TailSeg × SnakeTail :=
  if TAIL_MAX_SEGMENTS ≤ t.segments.length then (none, t)
  else
    let segIdx := t.segments.length
    let baseScale := match t.ownerScale with | some s => s | none => 1
    let scaleFactor := max TAIL_MIN_SCALE (1 - (segIdx : ℚ) * TAIL_SCALE_FACTOR) * baseScale
    let seg : TailSeg := { pos := initialPosition, scale := scaleFactor, segmentIndex := segIdx }
    (some seg, { t with segments := t.segments ++ [seg] })

/-- Tail.js `removeLastSegments(count)`: pop from the tail end until `count`
segments are removed or the tail is empty; return how many were removed.
Mesh/material/body disposal is an external resource release. -/
def SnakeTail.removeLastSegments (t : SnakeTail) : ℕ → ℕ × SnakeTail
  | 0 => (0, t)
  | n + 1 =>
    if t.segments.isEmpty then (0, t)
    else
      let t' := { t with segments := t.segments.dropLast }
      let r := SnakeTail.removeLastSegments t' n
      (r.1 + 1, r.2)

/-- Tail.js `getLength()`. -/
def SnakeTail.getLength (t : SnakeTail) : ℕ :=
  t.segments.length

/-- Tail.js `reset()`: drop all segments and clear the position history. -/
def SnakeTail.reset (t : SnakeTail) : SnakeTail :=
  { t with
    segments := []
    positionHistory := fun _ => ⟨0, 0, 0⟩
    historyHead := 0
    historyCount := 0 }

/-- Push a whole list of positions into the history, oldest first. -/
def SnakeTail.pushHistoryAll (t : SnakeTail) (ps : List Vec3) : SnakeTail :=
  ps.foldl SnakeTail.updatePositionHistory t

/-- Run a sequence of `addSegment` calls, ignoring the per-call results. -/
def SnakeTail.addSegmentAll (t : SnakeTail) (ps : List Vec3) : SnakeTail :=
  ps.foldl (fun t p => (t.addSegment p).2) t

/-! ## GameLoop.js delta-time clamp and RoundHUD.js SprintSystem -/

/-- GameLoop.js frame step: `if (dt > 0.1) dt = 0.1; if (dt <= 0) dt = 0.016;`
applied to the raw inter-frame delta before any subsystem update. -/
def clampDelta (raw : ℚ) : ℚ :=
  let d := if raw > 1/10 then 1/10 else raw
  if d ≤ 0 then 2/125 else d

/-- SprintSystem module state: the module-level `burnTimer` plus
`moveState.run`. -/
structure SprintState where
  burnTimer : ℚ
  run : ℕ
  deriving DecidableEq, Repr

/-- SprintSystem `updateSprint(dt, tail)`: while shift is held and the tail
is non-empty, accumulate `burnTimer`; each time it reaches
`SPRINT_BURN_INTERVAL`, subtract the interval, remove one tail segment and
publish `tail:burned`; always publish the sprinting state.  Releasing
shift (or an empty tail) resets the timer. -/
def updateSprint (sprintHeld : Bool) (dt : ℚ) (st : SprintState)
    (tail : Option SnakeTail) : SprintState × Option SnakeTail × List GEvent :=
  let tailLength := match tail with | some t => t.getLength | none => 0
  if sprintHeld ∧ 0 < tailLength then
    let bt := st.burnTimer + dt
    if SPRINT_BURN_INTERVAL ≤ bt then
      let bt' := bt - SPRINT_BURN_INTERVAL
      match tail with
      | some t =>
        let t' := (t.removeLastSegments 1).2
        ({ burnTimer := bt', run := 1 }, some t',
          [GEvent.tailBurned "player" 1 t'.getLength,
           GEvent.entitySprinting "player" true])
      | none =>
        ({ burnTimer := bt', run := 1 }, none, [GEvent.entitySprinting "player" true])
    else
      ({ burnTimer := bt, run := 1 }, tail, [GEvent.entitySprinting "player" true])
  else
    ({ burnTimer := 0, run := 0 }, tail,
      if sprintHeld then [GEvent.entitySprinting "player" false] else [])

/-- Fold `updateSprint` over a list of per-frame delta-times with the sprint
key held throughout, concatenating the emitted events. -/
def sprintRun (st : SprintState) (tail : Option SnakeTail) :
    List ℚ → SprintState × Option SnakeTail × List GEvent
  | [] => (st, tail, [])
  | dt :: rest =>
    let step := updateSprint true dt st tail
    let r := sprintRun step.1 step.2.1 rest
    (r.1, r.2.1, step.2.2 ++ r.2.2)

/-- Length of an optional tail (0 when absent), as SprintSystem reads it. -/
def optTailLength (tail : Option SnakeTail) : ℕ :=
  match tail with | some t => t.getLength | none => 0

/-- The `tail:burned` events contained in an event list, in order. -/
def burnEvents (evs : List GEvent) : List GEvent :=
  evs.filter (fun e => match e with | GEvent.tailBurned _ _ _ => true | _ => false)

/-! ## DeathManager.js -/

/-- Registered entity data (`this.entities` values): mesh visual state, the
Rapier body's translation/velocities, the entity's tail, and the data
captured at registration. -/
structure DMEntity where
  meshPos : Vec3
  meshScale : ℚ
  meshColor : ℕ
  meshVisible : Bool
  meshOpacity : ℚ
  bodyPos : Vec3
  bodyLinvel : Vec3
  bodyAngvel : Vec3
  tail : SnakeTail
  isBot : Bool
  originalColor : ℕ
  originalOpacity : ℚ

/-- Invulnerability window (`this.invulnerable` values). -/
structure InvulnEntry where
  timer : ℚ
  blinkTimer : ℚ
  visible : Bool
  deriving DecidableEq, Repr

/-- DeathManager state: registered entities and active invulnerability
windows, both keyed by entity id. -/
structure DeathManagerState where
  entities : List (String × DMEntity)
  invulnerable : List (String × InvulnEntry)

/-- DeathManager.js `isInvulnerable(entityId)`. -/
def DeathManagerState.isInvulnerable (s : DeathManagerState) (entityId : String) : Bool :=
  (alistLookup s.invulnerable entityId).isSome

/-- Coin-scatter positions produced by `killEntity`: one per tail segment up
to the cap, offset by two `Math.random()` draws and dropped from height 5.
Segments without a mesh are skipped (`if (seg && seg.mesh)`). -/
def scatterPositions (rng : ℕ → ℚ) (segs : List TailSeg) (n : ℕ) : List Vec3 :=
  (List.range n).filterMap (fun i =>
    (segs.get? i).map (fun seg =>
      ⟨seg.pos.x + (rng (2 * i) - 1/2) * 2, 5, seg.pos.z + (rng (2 * i + 1) - 1/2) * 2⟩))

/-- DeathManager.js `killEntity(entityId, killedById)`: unknown entities and
invulnerable entities are skipped.  (The shield/ghost check always passes:
RingPickup.js `hasPower()` is a stub returning `false`.)  Otherwise scatter
up to `MAX_SCATTERED_COINS` coins at tail-segment positions, reset the tail,
reset the mesh scale, flash white, respawn the body at a random position
with zero velocity, start an invulnerability window, and publish
`entity:died` then `entity:spawned`.  `rng` supplies the `Math.random()`
draws (indices `0..2*coins-1` for scatter offsets, the next two for the
spawn point); scattered coin spawn requests are returned as a list. -/
def DeathManagerState.killEntity (rng : ℕ → ℚ) (s : DeathManagerState)
    (entityId killedById : String) : DeathManagerState × List GEvent × List Vec3 :=
  match alistLookup s.entities entityId with
  | none => (s, [], [])
  | some entity =>
    if s.isInvulnerable entityId then (s, [], [])
    else
      let deathPos := entity.meshPos
      let tailLength := entity.tail.getLength
      let coinsToScatter := min tailLength MAX_SCATTERED_COINS
      let scatter := scatterPositions rng entity.tail.segments coinsToScatter
      let spawnX := (rng (2 * coinsToScatter) - 1/2) * COIN_SPAWN_AREA_XZ * (8/10)
      let spawnZ := (rng (2 * coinsToScatter + 1) - 1/2) * COIN_SPAWN_AREA_XZ * (8/10)
      let entity' :=
        { entity with
          tail := entity.tail.reset
          meshScale := 1
          meshColor := 0xffffff
          bodyPos := ⟨spawnX, 1, spawnZ⟩
          bodyLinvel := ⟨0, 0, 0⟩
          bodyAngvel := ⟨0, 0, 0⟩ }
      let s' : DeathManagerState :=
        { entities := alistInsert s.entities entityId entity'
          invulnerable :=
            alistInsert s.invulnerable entityId
              { timer := INVULNERABILITY_DURATION, blinkTimer := 0, visible := true } }
      (s',
        [GEvent.entityDied entityId killedById deathPos tailLength,
         GEvent.entitySpawned entityId ⟨spawnX, 1, spawnZ⟩ entity.isBot],
        scatter)

/-! ## PickupManager.js

The manager is parametric in the registered handlers: a handler is observed
by the manager only through the result of its `onCollect`, so it is
embedded as a pure function from entity id and instance to that result.
(The `context` argument built by `_getEntityMesh` carries presentation
references the manager itself never reads back.) -/

/-- A pickup instance as the manager sees it: the mesh position used in the
`pickup:collected` payload. -/
structure MInstance where
  meshPos : Option Vec3
  deriving DecidableEq, Repr

/-- Result of a handler's `onCollect`: `consumed` or an optional deferred
payload (opaque to the manager, modelled as a number). -/
structure MResult where
  consumed : Bool
  deferred : Option ℕ
  deriving DecidableEq, Repr

/-- A registered pickup handler, observed through `onCollect`. -/
structure MHandler where
  onCollect : String → MInstance → MResult

/-- One queued collision (`queueCollision` arguments). -/
structure MEntry where
  ptype : String
  entityId : String
  handle : ℕ
  extra : Option ℕ
  deriving DecidableEq, Repr

/-- PickupManager state: active instances per type keyed by physics handle,
the collision queue, and pending deferred actions. -/
structure MgrState where
  instances : List (String × List (ℕ × MInstance))
  collisionQueue : List MEntry
  deferredActions : List (String × ℕ × ℕ)
  deriving DecidableEq, Repr

/-- PickupManager.js `queueCollision(type, entityId, handle, extraData)`:
push onto the queue, nothing else. -/
def queueCollision (s : MgrState) (e : MEntry) : MgrState :=
  { s with collisionQueue := s.collisionQueue ++ [e] }

/-- Observable outcome of processing collision entries: the new state, the
published events, the entries for which `onCollect` ran, and the instances
passed to `dispose`. -/
structure StepOut where
  st : MgrState
  events : List GEvent
  calls : List MEntry
  disposed : List MInstance
  deriving Repr

/-- One iteration of the `processCollisions` loop body: resolve handler,
active map and instance (skipping on any failure), call `onCollect`; on
`consumed` dispose and delete the instance and publish `pickup:collected`;
on `deferred` delete the instance from the active map and record the
deferred action. -/
def stepEntry (handlers : List (String × MHandler)) (s : MgrState) (e : MEntry) : StepOut :=
  match alistLookup handlers e.ptype with
  | none => ⟨s, [], [], []⟩
  | some handler =>
    match alistLookup s.instances e.ptype with
    | none => ⟨s, [], [], []⟩
    | some activeMap =>
      match alistLookup activeMap e.handle with
      | none => ⟨s, [], [], []⟩
      | some inst =>
        let result := handler.onCollect e.entityId inst
        if result.consumed then
          ⟨{ s with instances := alistInsert s.instances e.ptype (alistErase activeMap e.handle) },
            [GEvent.pickupCollected e.ptype e.entityId inst.meshPos], [e], [inst]⟩
        else
          match result.deferred with
          | some d =>
            ⟨{ s with
                instances := alistInsert s.instances e.ptype (alistErase activeMap e.handle)
                deferredActions := s.deferredActions ++ [(e.ptype, e.handle, d)] },
              [], [e], []⟩
          | none => ⟨s, [], [e], []⟩

/-- The `processCollisions` loop over a list of entries. -/
def processEntries (handlers : List (String × MHandler)) (s : MgrState) :
    List MEntry → StepOut
  | [] => ⟨s, [], [], []⟩
  | e :: es =>
    let o := stepEntry handlers s e
    let r := processEntries handlers o.st es
    ⟨r.st, o.events ++ r.events, o.calls ++ r.calls, o.disposed ++ r.disposed⟩

/-- PickupManager.js `processCollisions()`: run the loop over the queued
collisions, then clear the queue. -/
def processCollisions (handlers : List (String × MHandler)) (s : MgrState) : StepOut :=
  let r := processEntries handlers s s.collisionQueue
  ⟨{ r.st with collisionQueue := [] }, r.events, r.calls, r.disposed⟩

/-- Whether an entry resolves (handler registered, type map present,
instance live) against given instance maps — the condition under which the
loop body reaches `onCollect`. -/
def entryResolves (handlers : List (String × MHandler))
    (instances : List (String × List (ℕ × MInstance))) (e : MEntry) : Bool :=
  (alistLookup handlers e.ptype).isSome &&
    match alistLookup instances e.ptype with
    | none => false
    | some activeMap => (alistLookup activeMap e.handle).isSome

/-- Look up a live instance by type and handle in a manager state. -/
def lookupInstance (s : MgrState) (ptype : String) (handle : ℕ) : Option MInstance :=
  match alistLookup s.instances ptype with
  | none => none
  | some activeMap => alistLookup activeMap handle

/-! ## RingPickup.js -/

/-- A spawned ring instance: mesh position and yaw, color, the optional
physics body (by handle; `null` once removed) and the spawn timestamp. -/
structure RingInstance where
  meshPos : Vec3
  meshRotY : ℚ
  color : ℕ
  body : Option ℕ
  spawnedAt : ℚ
  deriving DecidableEq, Repr

/-- The deferred-action object built by `onCollect` and advanced by
`updateDeferred`.  The source builds ad-hoc objects with only the fields of
the current mode; unused fields here hold `0`/`false`.  The captured `tail`
and `entityMesh` references are represented by threading the tail state and
the entity position through `ringUpdateDeferred` (with `entityMeshPresent`
recording whether a mesh was captured at all). -/
structure RingDeferred where
  mode : String
  landed : Bool
  celebrateTimer : ℚ
  safetyTimer : ℚ
  freezeTimer : ℚ
  timer : ℚ
  fadeTimer : ℚ
  entityId : String
  entityMeshPresent : Bool
  ring : RingInstance
  handle : Option ℕ
  deriving DecidableEq, Repr

/-- A bot as the ring handler sees it through `botManager.bots`. -/
structure RingBotRef where
  id : String
  meshPos : Option Vec3
  tailPresent : Bool
  deriving DecidableEq, Repr

/-- RingPickup handler state: per-entity hit cooldowns, the set of already
processed body handles, and the external player/bot references. -/
structure RingHandlerState where
  hitCooldowns : List (String × ℚ)
  processedHandles : List ℕ
  playerMeshPos : Option Vec3
  playerTailPresent : Bool
  botManager : Option (List RingBotRef)
  deriving DecidableEq, Repr

/-- Which tail and mesh `onCollect` captures for a given entity id: the
player references for `player`, otherwise a lookup in `botManager.bots`. -/
def resolveRingEntity (s : RingHandlerState) (entityId : String) : Bool × Option Vec3 :=
  if entityId = "player" then (s.playerTailPresent, s.playerMeshPos)
  else
    match s.botManager with
    | none => (false, none)
    | some bots =>
      match bots.find? (fun b => b.id == entityId) with
      | none => (false, none)
      | some bot => (bot.tailPresent, bot.meshPos)

/-- RingPickup.js `_isTouchingTorusBody`: transform the entity position into
the ring's local frame (undoing the yaw), measure the in-plane distance to
the ring circle of major radius 3.0, and compare against the touch
threshold 1.0.  Falls back to `true` when no entity mesh is known.  Stated
over the reals because of the trigonometry and square root. -/
def isTouchingTorusBody (entityMesh : Option Vec3) (ringPos : Vec3) (ringRotY : ℚ) : Prop :=
  match entityMesh with
  | none => True
  | some p =>
    let dx : ℝ := (p.x : ℝ) - (ringPos.x : ℝ)
    let dy : ℝ := (p.y : ℝ) - (ringPos.y : ℝ)
    let dz : ℝ := (p.z : ℝ) - (ringPos.z : ℝ)
    let angle : ℝ := -(ringRotY : ℝ)
    let lx := dx * Real.cos angle - dz * Real.sin angle
    let ly := dy
    let distInPlane := Real.sqrt (lx * lx + ly * ly)
    |distInPlane - 3| < 1

/-- The cooldown/processed guard at the top of `onCollect`:
`handle != null && this.processedHandles.has(handle)`. -/
def ringAlreadyProcessed (s : RingHandlerState) (handle : Option ℕ) : Bool :=
  match handle with
  | some h => s.processedHandles.contains h
  | none => false

/-- Result of `onCollect`: the consumed flag, the optional deferred action,
and the events it published. -/
structure RingCollectResult where
  consumed : Bool
  deferred : Option RingDeferred
  events : List GEvent
  deriving DecidableEq, Repr

open Classical in
/-- RingPickup.js `onCollect(entityId, instance, context)`: skip while the
entity is on cooldown or the handle was already processed; resolve the
entity's tail/mesh; run the torus touch test; a clean center pass while
jumping yields a `passing` deferred action, touching the body yields
`airFreeze` (air) or `stunned` (ground), otherwise no effect.  All three
trigger paths mark the handle processed, remove the physics body and start
the per-entity cooldown.  Screen shake, particles and sound are external
effects.  `onCollect` performs no tail mutation on any path (it only
captures the tail reference into the deferred action). -/
noncomputable def ringOnCollect (s : RingHandlerState) (entityId : String)
    (inst : RingInstance) : RingCollectResult × RingHandlerState :=
  let handle := inst.body
  if (alistLookup s.hitCooldowns entityId).isSome then
    (⟨false, none, []⟩, s)
  else if ringAlreadyProcessed s handle then
    (⟨false, none, []⟩, s)
  else
    let resolved := resolveRingEntity s entityId
    let entityMesh := resolved.2
    let isJumping := match entityMesh with | some p => decide (6/5 < p.y) | none => false
    let touchingRing := isTouchingTorusBody entityMesh inst.meshPos inst.meshRotY
    let markProcessed : RingHandlerState :=
      { s with
        processedHandles :=
          match handle with
          | some h => s.processedHandles.insert h
          | none => s.processedHandles
        hitCooldowns := alistInsert s.hitCooldowns entityId HIT_COOLDOWN }
    if ¬ touchingRing ∧ isJumping = true then
      (⟨false,
        some { mode := "passing", landed := false, celebrateTimer := 1/5, safetyTimer := 3,
               freezeTimer := 0, timer := 0, fadeTimer := 0, entityId := entityId,
               entityMeshPresent := entityMesh.isSome, ring := { inst with body := none },
               handle := handle },
        []⟩, markProcessed)
    else if ¬ touchingRing then
      (⟨false, none, []⟩, s)
    else if isJumping = true then
      (⟨false,
        some { mode := "airFreeze", landed := false, celebrateTimer := 1/5, safetyTimer := 3,
               freezeTimer := 7/20, timer := 0, fadeTimer := 0, entityId := entityId,
               entityMeshPresent := entityMesh.isSome, ring := { inst with body := none },
               handle := handle },
        (if entityId = "player" then [GEvent.playerFreeze true] else []) ++
          [GEvent.ringShocked entityId]⟩, markProcessed)
    else
      (⟨false,
        some { mode := "stunned", landed := false, celebrateTimer := 0, safetyTimer := 0,
               freezeTimer := 0, timer := 2/5, fadeTimer := 0, entityId := entityId,
               entityMeshPresent := entityMesh.isSome, ring := { inst with body := none },
               handle := handle },
        (if entityId = "player" then [GEvent.playerFreeze true] else []) ++
          [GEvent.ringShocked entityId]⟩, markProcessed)

/-- The reward loop `for (i = 0; i < segmentsToAdd; i++) tail.addSegment(pos)`. -/
def addSegmentsLoop (t : SnakeTail) (pos : Vec3) : ℕ → SnakeTail
  | 0 => t
  | n + 1 => addSegmentsLoop (t.addSegment pos).2 pos n

/-- Observable outcome of one `updateDeferred` tick: the updated deferred
data, the updated captured tail, how many times `tail.addSegment` was
invoked this tick, the published events, and the completion flag. -/
structure RingDeferredOut where
  data : RingDeferred
  tail : Option SnakeTail
  addSegmentCalls : ℕ
  events : List GEvent
  done : Bool

/-- RingPickup.js `updateDeferred(data, dt)`.  `entityPos` is the current
position of the captured entity mesh for this tick (the source reads
`data.entityMesh.position`; when no mesh was captured the height used is
`0`).  Mode `airFreeze`: hold, then apply the tail penalty, emit `ring:hit`
and fade out.  Mode `passing`: wait for landing (`y < 1.2`) or the safety
timeout, hold through the celebrate pause, then call `addSegment`
`RING_STAMINA_PENALTY` times, emit `ring:jumped` and fade out.  Mode
`stunned`: hold with fade, then apply the penalty and fade out.  Mode
`fadeOut`: count down and report completion (the source also drops the
handle from `processedHandles`, a handler-state effect outside this
per-action step).  Any other mode completes immediately. -/
def ringUpdateDeferred (d : RingDeferred) (tail : Option SnakeTail) (dt : ℚ)
    (entityPos : Vec3) : RingDeferredOut :=
  if d.mode = "airFreeze" then
    let ft := d.freezeTimer - dt
    if ft ≤ 0 then
      let unfreezeEvs := if d.entityId = "player" then [GEvent.playerFreeze false] else []
      let d' := { d with freezeTimer := ft, mode := "fadeOut", fadeTimer := FADE_OUT_DURATION }
      match tail with
      | some t =>
        if 0 < t.getLength then
          let segmentsToRemove := min RING_STAMINA_PENALTY t.getLength
          let t' := (t.removeLastSegments segmentsToRemove).2
          ⟨d', some t', 0,
            unfreezeEvs ++ [GEvent.ringHit d.entityId segmentsToRemove t'.getLength], false⟩
        else ⟨d', some t, 0, unfreezeEvs, false⟩
      | none => ⟨d', none, 0, unfreezeEvs, false⟩
    else ⟨{ d with freezeTimer := ft }, tail, 0, [], false⟩
  else if d.mode = "passing" then
    let st := d.safetyTimer - dt
    if d.landed = false then
      let y := if d.entityMeshPresent then entityPos.y else 0
      if y < 6/5 ∨ st ≤ 0 then
        ⟨{ d with safetyTimer := st, landed := true }, tail, 0, [], false⟩
      else
        ⟨{ d with safetyTimer := st }, tail, 0, [], false⟩
    else
      let ct := d.celebrateTimer - dt
      if 0 < ct ∧ 0 < st then
        ⟨{ d with safetyTimer := st, celebrateTimer := ct }, tail, 0, [], false⟩
      else
        let d' := { d with safetyTimer := st, celebrateTimer := ct,
                           mode := "fadeOut", fadeTimer := FADE_OUT_DURATION }
        match tail with
        | some t =>
          let t' := addSegmentsLoop t entityPos RING_STAMINA_PENALTY
          ⟨d', some t', RING_STAMINA_PENALTY,
            [GEvent.ringJumped d.entityId RING_STAMINA_PENALTY t'.getLength], false⟩
        | none => ⟨d', none, 0, [], false⟩
  else if d.mode = "stunned" then
    let tm := d.timer - dt
    if tm ≤ 0 then
      let unfreezeEvs := if d.entityId = "player" then [GEvent.playerFreeze false] else []
      let d' := { d with timer := tm, mode := "fadeOut", fadeTimer := FADE_OUT_DURATION }
      match tail with
      | some t =>
        if 0 < t.getLength then
          let segmentsToRemove := min RING_STAMINA_PENALTY t.getLength
          let t' := (t.removeLastSegments segmentsToRemove).2
          ⟨d', some t', 0,
            [GEvent.ringHit d.entityId segmentsToRemove t'.getLength] ++ unfreezeEvs, false⟩
        else ⟨d', some t, 0, unfreezeEvs, false⟩
      | none => ⟨d', none, 0, unfreezeEvs, false⟩
    else ⟨{ d with timer := tm }, tail, 0, [], false⟩
  else if d.mode = "fadeOut" then
    let ft := d.fadeTimer - dt
    if ft ≤ 0 then ⟨{ d with fadeTimer := ft }, tail, 0, [], true⟩
    else ⟨{ d with fadeTimer := ft }, tail, 0, [], false⟩
  else ⟨d, tail, 0, [], true⟩

/-- Tick a deferred ring action over a trace of `(dt, entityPosition)`
environments, recording the number of `addSegment` calls of each tick.  The
run stops once the action reports completion (PickupManager splices it out
then). -/
def ringRun (d : RingDeferred) (tail : Option SnakeTail) :
    List (ℚ × Vec3) → List ℕ
  | [] => []
  | (dt, pos) :: rest =>
    let o := ringUpdateDeferred d tail dt pos
    o.addSegmentCalls :: (if o.done then [] else ringRun o.data o.tail rest)

/-! ## BotManager.js -/

/-- Bot AI states (`AI_STATE`). -/
inductive AIState where
  | WANDER
  | CHASE_COIN
  | AVOID_RING
  | AVOID
  | ATTACK
  deriving DecidableEq, Repr

/-- Per-bot state touched by the tail end of `updateAI`. -/
structure BotState where
  id : String
  angle : ℚ
  prevAngle : ℚ
  spinAccum : ℚ
  aiState : AIState
  stateTimer : ℚ
  wanderTurnTimer : ℚ
  sprinting : Bool
  sprintBurnTimer : ℚ
  tail : SnakeTail

/-- BotManager.js `updateAI` attack-entry check (lines 390-394), the first
statement after the steering switch. -/
def attackEntryStep (bot : BotState) (nearestThreatDist : ℚ) : BotState :=
  if bot.aiState = AIState.WANDER ∧ 10 < bot.tail.getLength ∧
      nearestThreatDist < BOT_VISION_RANGE then
    { bot with aiState := AIState.ATTACK, stateTimer := 0 }
  else bot

/-- Spin detection (lines 396-411): fold the absolute wrapped per-tick
heading change into the decayed `spinAccum`, and past two full rotations
kick the heading by a random amount, force `WANDER` and zero the
accumulator. -/
def spinDetectStep (bot : BotState) (rngKick rngWander : ℚ) : BotState :=
  let delta0 := bot.angle - bot.prevAngle
  let delta1 := if MATH_PI < delta0 then delta0 - MATH_PI * 2 else delta0
  let delta2 := if delta1 < -MATH_PI then delta1 + MATH_PI * 2 else delta1
  let bot' := { bot with spinAccum := (bot.spinAccum + |delta2|) * (95/100),
                         prevAngle := bot.angle }
  if MATH_PI * 4 < bot'.spinAccum then
    { bot' with angle := bot'.angle + (rngKick - 1/2) * MATH_PI,
                aiState := AIState.WANDER, stateTimer := 0, spinAccum := 0,
                wanderTurnTimer := rngWander }
  else bot'

/-- The ATTACK time cap (lines 413-418). -/
def attackCapStep (bot : BotState) (rngWander2 : ℚ) : BotState :=
  if bot.aiState = AIState.ATTACK ∧ 5 < bot.stateTimer then
    { bot with aiState := AIState.WANDER, stateTimer := 0, wanderTurnTimer := rngWander2 }
  else bot

/-- The bot sprint tail burn (lines 420-434). -/
def sprintBurnStep (bot : BotState) (dt : ℚ) : BotState × List GEvent :=
  if bot.sprinting ∧ 0 < bot.tail.getLength then
    let bt := bot.sprintBurnTimer + dt
    if 3/2 ≤ bt then
      let t' := (bot.tail.removeLastSegments 1).2
      ({ bot with sprintBurnTimer := bt - 3/2, tail := t' },
        [GEvent.tailBurned bot.id 1 t'.getLength])
    else ({ bot with sprintBurnTimer := bt }, [])
  else ({ bot with sprintBurnTimer := 0 }, [])

/-- BotManager.js `updateAI` from the attack-entry check after the state
switch to the end of the function (lines 390-434), as the sequence of the
four straight-line blocks above.  `rngKick`, `rngWander` and `rngWander2`
supply the `Math.random()` draw of the heading kick and the two possible
`randomWanderInterval()` results; the steering switch before this code only
affects `angle`/`aiState`/`sprinting`, which enter as the incoming field
values. -/
def updateAIEnd (bot : BotState) (dt : ℚ) (nearestThreatDist : ℚ)
    (rngKick rngWander rngWander2 : ℚ) : BotState × List GEvent :=
  sprintBurnStep
    (attackCapStep (spinDetectStep (attackEntryStep bot nearestThreatDist) rngKick rngWander)
      rngWander2)
    dt

/-- The decayed spin total computed inside one `updateAI` tick, before the
breakout test: `(spinAccum + |wrapped heading delta|) * 0.95`. -/
def spinTotalOfTick (spinAccum angle prevAngle : ℚ) : ℚ :=
  let delta0 := angle - prevAngle
  let delta1 := if MATH_PI < delta0 then delta0 - MATH_PI * 2 else delta0
  let delta2 := if delta1 < -MATH_PI then delta1 + MATH_PI * 2 else delta1
  (spinAccum + |delta2|) * (95/100)

/-! ## RoundManager.js -/

/-- An entity snapshot handed to `getRankings`. -/
structure RankEntity where
  id : String
  size : ℚ
  tailLength : ℕ
  color : ℕ
  deriving DecidableEq, Repr

/-- One ranking row: the mapped snapshot fields, the computed score, and the
1-based rank attached to the top three. -/
structure RankedEntry where
  id : String
  size : ℚ
  tailLength : ℕ
  score : ℤ
  color : ℕ
  rank : ℕ
  deriving DecidableEq, Repr

/-- JS `Math.round`: round half toward positive infinity, i.e. the floor of
`x + 0.5`. -/
def mathRound (x : ℚ) : ℤ := ⌊x + 1/2⌋

/-- RoundManager.js `getRankings(entities)`: map each snapshot to a row with
`score = tailLength + Math.round((size - 1) * 10)`, sort by score descending
(`Array.prototype.sort` is stable, embedded as a stable insertion sort),
take the top three and attach ranks 1..3 (`slice(0,3).map((e,i) => ...)`,
written as a recursion carrying the index). -/
def attachRanks : ℕ → List RankedEntry → List RankedEntry
  | _, [] => []
  | i, e :: rest => { e with rank := i + 1 } :: attachRanks (i + 1) rest

/-- RoundManager.js `getRankings(entities)` body: map, stable-sort by score
descending, take the top three, attach ranks. -/
def getRankings (entities : List RankEntity) : List RankedEntry :=
  let ranked := entities.map (fun e =>
    ({ id := e.id, size := e.size, tailLength := e.tailLength,
       score := (e.tailLength : ℤ) + mathRound ((e.size - 1) * 10),
       color := e.color, rank := 0 } : RankedEntry))
  let sorted := List.insertionSort (fun a b => b.score ≤ a.score) ranked
  attachRanks 0 (sorted.take 3)

/-! ## Concrete fixtures used by the witness theorems -/

/-- A tail already holding `TAIL_MAX_SEGMENTS` segments. -/
def tailAt50 : SnakeTail :=
  { SnakeTail.new "player" 0 none with
    segments := (List.range 50).map (fun i => ⟨⟨0, 0, 0⟩, 1, i⟩) }

/-- A tail holding five segments. -/
def tailLen5 : SnakeTail :=
  { SnakeTail.new "player" 0 none with
    segments := (List.range 5).map (fun i => ⟨⟨0, 0, 0⟩, 1, i⟩) }

/-- A freshly constructed tail with two positions pushed into its history. -/
def tailHist2 : SnakeTail :=
  (SnakeTail.new "player" 0 none).pushHistoryAll [⟨1, 0, 0⟩, ⟨2, 0, 0⟩]

/-- A registered entity for the DeathManager fixtures. -/
def dmEntityW : DMEntity :=
  { meshPos := ⟨0, 1, 0⟩, meshScale := 1, meshColor := 5, meshVisible := true,
    meshOpacity := 1, bodyPos := ⟨0, 1, 0⟩, bodyLinvel := ⟨0, 0, 0⟩,
    bodyAngvel := ⟨0, 0, 0⟩, tail := tailLen5, isBot := false,
    originalColor := 5, originalOpacity := 1 }

/-- A DeathManager state in which entity `e` is inside its invulnerability
window. -/
def dmStateW : DeathManagerState :=
  { entities := [("e", dmEntityW)], invulnerable := [("e", ⟨1, 0, true⟩)] }

/-- A pickup handler whose `onCollect` always consumes. -/
def consumeHandlerW : MHandler :=
  { onCollect := fun _ _ => ⟨true, none⟩ }

/-- A handler table registering `consumeHandlerW` under type `coin`. -/
def handlersW : List (String × MHandler) :=
  [("coin", consumeHandlerW)]

/-- A manager state with one live coin instance under handle 7. -/
def mgrW : MgrState :=
  { instances := [("coin", [(7, ⟨some ⟨1, 2, 3⟩⟩)])],
    collisionQueue := [], deferredActions := [] }

/-- A queued collision of the player with handle 7. -/
def entryW : MEntry :=
  { ptype := "coin", entityId := "player", handle := 7, extra := none }

/-- A bot state that has accumulated a large spin total. -/
def botW : BotState :=
  { id := "bot-0", angle := 0, prevAngle := 0, spinAccum := 20,
    aiState := AIState.WANDER, stateTimer := 0, wanderTurnTimer := 0,
    sprinting := false, sprintBurnTimer := 0, tail := SnakeTail.new "bot-0" 0 none }

/-- A ring handler state with a known player mesh high in the air and no
cooldowns or processed handles. -/
def ringStateW : RingHandlerState :=
  { hitCooldowns := [], processedHandles := [], playerMeshPos := some ⟨0, 3, 0⟩,
    playerTailPresent := true, botManager := none }

/-- A ring instance hovering at the spawn height with no yaw. -/
def ringInstW : RingInstance :=
  { meshPos := ⟨0, 9/2, 0⟩, meshRotY := 0, color := 0xff4444, body := some 7,
    spawnedAt := 0 }

/-! ## Association-list lemmas -/

theorem alistLookup_insert {α β : Type} [DecidableEq α] (l : List (α × β)) (k : α) (v : β) :
    alistLookup (alistInsert l k v) k = some v := by
  induction l with
  | nil => simp [alistInsert, alistLookup]
  | cons p rest ih =>
    by_cases h : k = p.1
    · simp [alistInsert, alistLookup, h]
    · simp [alistInsert, alistLookup, h, ih]

theorem alistLookup_insert_ne {α β : Type} [DecidableEq α] (l : List (α × β)) (k k' : α)
    (v : β) (h : k' ≠ k) :
    alistLookup (alistInsert l k v) k' = alistLookup l k' := by
  induction l with
  | nil => simp [alistInsert, alistLookup, h]
  | cons p rest ih =>
    by_cases hk : k = p.1
    · subst hk
      simp [alistInsert, alistLookup, h]
    · by_cases hk' : k' = p.1
      · simp [alistInsert, alistLookup, hk, hk']
      · simp [alistInsert, alistLookup, hk, hk', ih]

theorem alistLookup_erase {α β : Type} [DecidableEq α] (l : List (α × β)) (k : α) :
    alistLookup (alistErase l k) k = none := by
  induction l with
  | nil => simp [alistErase, alistLookup]
  | cons p rest ih =>
    obtain ⟨k', v⟩ := p
    by_cases h : k' = k
    · simpa [alistErase, h] using ih
    · have hne : ¬ k = k' := fun hh => h hh.symm
      simpa [alistErase, alistLookup, h, hne] using ih

theorem alistLookup_erase_ne {α β : Type} [DecidableEq α] (l : List (α × β)) (k k' : α)
    (h : k' ≠ k) :
    alistLookup (alistErase l k) k' = alistLookup l k' := by
  induction l with
  | nil => simp [alistErase, alistLookup]
  | cons p rest ih =>
    obtain ⟨kh, v⟩ := p
    by_cases hp : kh = k
    · subst hp
      simpa [alistErase, alistLookup, h] using ih
    · by_cases hk' : k' = kh
      · simp [alistErase, alistLookup, hp, hk']
      · simp [alistErase, alistLookup, hp, hk', ih]

/-! ## C9 — round ranking -/

/-- C9: `getRankings` on the snapshot `[a: size 2.0, tail 10; b: size 1.0,
tail 25; c: size 3.5, tail 0]` computes scores 20, 25, 25, returns exactly
three rows ranked 1..3 in descending score order, and resolves the b/c tie
deterministically with b (the earlier snapshot entry, kept first by the
stable sort) ahead of c.  Determinism of the tie-break follows from
`getRankings` being a pure function of the snapshot. -/
theorem getRankings_concrete :
    getRankings [⟨"a", 2, 10, 0⟩, ⟨"b", 1, 25, 0⟩, ⟨"c", 7/2, 0, 0⟩] =
      [⟨"b", 1, 25, 25, 0, 1⟩, ⟨"c", 7/2, 0, 25, 0, 2⟩, ⟨"a", 2, 10, 20, 0, 3⟩] := by
  norm_num [getRankings, mathRound, List.insertionSort, List.orderedInsert, attachRanks]

/-! ## C5 — tail capacity -/

/-- C5: over every sequence of `addSegment` calls the segment count never
exceeds `TAIL_MAX_SEGMENTS`, and a call made at (or beyond) the maximum
returns the rejection value `null` and leaves the segment list unchanged. -/
theorem addSegment_capacity :
    (∀ (t : SnakeTail) (p : Vec3), TAIL_MAX_SEGMENTS ≤ t.segments.length →
        t.addSegment p = (none, t)) ∧
    (∀ (t : SnakeTail) (ps : List Vec3), t.segments.length ≤ TAIL_MAX_SEGMENTS →
        (t.addSegmentAll ps).segments.length ≤ TAIL_MAX_SEGMENTS) := by
  constructor
  · intro t p h
    simp [SnakeTail.addSegment, h]
  · intro t ps
    induction ps generalizing t with
    | nil => intro h; simpa [SnakeTail.addSegmentAll] using h
    | cons p ps ih =>
      intro h
      have hstep : ((t.addSegment p).2).segments.length ≤ TAIL_MAX_SEGMENTS := by
        by_cases hc : TAIL_MAX_SEGMENTS ≤ t.segments.length
        · simpa [SnakeTail.addSegment, hc] using h
        · push_neg at hc
          simp only [SnakeTail.addSegment, if_neg (by omega : ¬ TAIL_MAX_SEGMENTS ≤ t.segments.length)]
          simp
          omega
      have := ih _ hstep
      simpa [SnakeTail.addSegmentAll] using this

/-- Witness for C5 at a tail holding exactly 50 segments. -/
theorem addSegment_capacity_witness :
    (TAIL_MAX_SEGMENTS ≤ tailAt50.segments.length ∧
      tailAt50.addSegment ⟨1, 2, 3⟩ = (none, tailAt50)) ∧
    (tailAt50.segments.length ≤ TAIL_MAX_SEGMENTS ∧
      (tailAt50.addSegmentAll [⟨1, 2, 3⟩]).segments.length ≤ TAIL_MAX_SEGMENTS) :=
  ⟨⟨by decide, addSegment_capacity.1 tailAt50 ⟨1, 2, 3⟩ (by decide)⟩,
   ⟨by decide, addSegment_capacity.2 tailAt50 [⟨1, 2, 3⟩] (by decide)⟩⟩

/-! ## C4 — invulnerability gate -/

/-- C4: `killEntity` on an entity inside its invulnerability window is a
complete no-op: the returned state is the input state (tail, scale,
position, velocity and the invulnerability table all unchanged), no event
is published and no coin-scatter spawn is requested. -/
theorem killEntity_invulnerable_noop :
    ∀ (rng : ℕ → ℚ) (s : DeathManagerState) (entityId killedById : String),
      s.isInvulnerable entityId = true →
      s.killEntity rng entityId killedById = (s, [], []) := by
  intro rng s entityId killedById h
  unfold DeathManagerState.killEntity
  cases hl : alistLookup s.entities entityId with
  | none => rfl
  | some e => simp [h]

/-- Witness for C4 at a concrete invulnerable entity. -/
theorem killEntity_invulnerable_noop_witness :
    dmStateW.isInvulnerable "e" = true ∧
    dmStateW.killEntity (fun _ => 0) "e" "k" = (dmStateW, [], []) :=
  ⟨by rfl, killEntity_invulnerable_noop (fun _ => 0) dmStateW "e" "k" (by rfl)⟩

/-! ## C10 — shared temporary vector -/

/-- C10: for every in-range offset, `getHistoryPosition` returns the single
module-level `_tempVec3` shared by all `SnakeTail` instances rather than a
fresh vector, so after two successive in-range reads the object returned by
the first read holds the position of the second read's offset — every read
invalidates all previously returned positions. -/
theorem getHistoryPosition_shared_temp :
    ∀ (m : TailModuleTemps) (t t' : SnakeTail) (i j : ℕ),
      i < t.historyCount → j < t'.historyCount →
      (SnakeTail.getHistoryPosition m t i).1 = some SharedVecRef.tempVec3Ref ∧
      (SnakeTail.getHistoryPosition (SnakeTail.getHistoryPosition m t i).2 t' j).1 =
        some SharedVecRef.tempVec3Ref ∧
      some (derefVec
              (SnakeTail.getHistoryPosition (SnakeTail.getHistoryPosition m t i).2 t' j).2
              SharedVecRef.tempVec3Ref) =
        t'.getHistoryValue j := by
  intro m t t' i j hi hj
  have hi' : ¬ t.historyCount ≤ i := by omega
  have hj' : ¬ t'.historyCount ≤ j := by omega
  simp [SnakeTail.getHistoryPosition, SnakeTail.getHistoryValue, derefVec, hi', hj']

/-- Witness for C10: two successive reads on a concrete two-entry history. -/
theorem getHistoryPosition_shared_temp_witness :
    0 < tailHist2.historyCount ∧ 1 < tailHist2.historyCount ∧
    ((SnakeTail.getHistoryPosition ⟨⟨9, 9, 9⟩⟩ tailHist2 0).1 = some SharedVecRef.tempVec3Ref ∧
     (SnakeTail.getHistoryPosition
        (SnakeTail.getHistoryPosition ⟨⟨9, 9, 9⟩⟩ tailHist2 0).2 tailHist2 1).1 =
       some SharedVecRef.tempVec3Ref ∧
     some (derefVec
            (SnakeTail.getHistoryPosition
              (SnakeTail.getHistoryPosition ⟨⟨9, 9, 9⟩⟩ tailHist2 0).2 tailHist2 1).2
            SharedVecRef.tempVec3Ref) =
       tailHist2.getHistoryValue 1) :=
  ⟨by decide, by decide,
    getHistoryPosition_shared_temp ⟨⟨9, 9, 9⟩⟩ tailHist2 tailHist2 0 1 (by decide) (by decide)⟩

/-! ## C6 — position-history correctness -/

/-- Ring-buffer invariant: pushing `ps` into a tail whose history has room
for all of them advances the head by `ps.length` modulo the capacity,
grows the count by `ps.length`, stores the `i`-th pushed position at slot
`(head + i + 1) % 1000`, and leaves every other slot untouched. -/
theorem pushAll_invariant :
    ∀ (ps : List Vec3) (t : SnakeTail),
      t.maxHistoryLength = 1000 →
      t.historyHead < 1000 →
      t.historyCount + ps.length ≤ 1000 →
      (t.pushHistoryAll ps).maxHistoryLength = 1000 ∧
      (t.pushHistoryAll ps).historyHead = (t.historyHead + ps.length) % 1000 ∧
      (t.pushHistoryAll ps).historyCount = t.historyCount + ps.length ∧
      (∀ i, i < ps.length →
          (t.pushHistoryAll ps).positionHistory ((t.historyHead + i + 1) % 1000) =
            ps.getD i ⟨0, 0, 0⟩) ∧
      (∀ slot, (∀ i, i < ps.length → slot ≠ (t.historyHead + i + 1) % 1000) →
          (t.pushHistoryAll ps).positionHistory slot = t.positionHistory slot) := by
  intro ps
  induction ps with
  | nil =>
    intro t hmax hhead _
    refine ⟨by simpa [SnakeTail.pushHistoryAll] using hmax, ?_,
      by simp [SnakeTail.pushHistoryAll], ?_, ?_⟩
    · simp only [SnakeTail.pushHistoryAll, List.foldl_nil, List.length_nil, Nat.add_zero]
      omega
    · intro i hi
      simp at hi
    · intro slot _
      simp [SnakeTail.pushHistoryAll]
  | cons p ps ih =>
    intro t hmax hhead hcount
    have hclt : t.historyCount < 1000 := by
      simp only [List.length_cons] at hcount
      omega
    have h1max : (t.updatePositionHistory p).maxHistoryLength = 1000 := by
      simp [SnakeTail.updatePositionHistory, hmax]
    have h1head : (t.updatePositionHistory p).historyHead = (t.historyHead + 1) % 1000 := by
      simp [SnakeTail.updatePositionHistory, hmax]
    have h1headlt : (t.updatePositionHistory p).historyHead < 1000 := by
      rw [h1head]; omega
    have h1count : (t.updatePositionHistory p).historyCount = t.historyCount + 1 := by
      simp only [SnakeTail.updatePositionHistory, hmax]
      rw [if_pos hclt]
    have h1buf : (t.updatePositionHistory p).positionHistory =
        writeSlot t.positionHistory ((t.historyHead + 1) % 1000) p := by
      simp [SnakeTail.updatePositionHistory, hmax]
    have hPA : t.pushHistoryAll (p :: ps) = (t.updatePositionHistory p).pushHistoryAll ps := by
      simp [SnakeTail.pushHistoryAll]
    have hcount1 : (t.updatePositionHistory p).historyCount + ps.length ≤ 1000 := by
      rw [h1count]
      simp only [List.length_cons] at hcount
      omega
    obtain ⟨imax, ihead, icount, iwrite, ipres⟩ := ih (t.updatePositionHistory p) h1max h1headlt hcount1
    rw [hPA]
    refine ⟨imax, ?_, ?_, ?_, ?_⟩
    · rw [ihead, h1head]
      simp only [List.length_cons]
      omega
    · rw [icount, h1count]
      simp only [List.length_cons]
      omega
    · intro i hi
      cases i with
      | zero =>
        have hne : ∀ i', i' < ps.length →
            (t.historyHead + 0 + 1) % 1000 ≠
              ((t.updatePositionHistory p).historyHead + i' + 1) % 1000 := by
          intro i' hi'
          rw [h1head]
          simp only [List.length_cons] at hcount
          omega
        rw [ipres ((t.historyHead + 0 + 1) % 1000) hne, h1buf]
        simp [writeSlot]
      | succ i' =>
        have hlt : i' < ps.length := by
          simp only [List.length_cons] at hi
          omega
        have hs : ((t.updatePositionHistory p).historyHead + i' + 1) % 1000 =
            (t.historyHead + (i' + 1) + 1) % 1000 := by
          rw [h1head]; omega
        have := iwrite i' hlt
        rw [hs] at this
        rw [this]
        simp
    · intro slot hslot
      have hpres := ipres slot (fun i' hi' => by
        have hs : ((t.updatePositionHistory p).historyHead + i' + 1) % 1000 =
            (t.historyHead + (i' + 1) + 1) % 1000 := by
          rw [h1head]; omega
        rw [hs]
        exact hslot (i' + 1) (by simp only [List.length_cons]; omega))
      rw [hpres, h1buf]
      have h0 := hslot 0 (by simp only [List.length_cons]; omega)
      simp only [writeSlot]
      rw [if_neg]
      simpa using h0

/-- C6: after pushing `p0 … pN` (N below the capacity 1000) into a freshly
constructed tail's history, `read 0` returns `pN`, `read k` returns
`p(N−k)` for every `k ≤ N`, and `read k` returns `null` for every
`k ≥ N+1`. -/
theorem history_read_correct :
    ∀ (entityId : String) (color : ℕ) (ownerScale : Option ℚ) (ps : List Vec3) (k : ℕ),
      ps.length ≤ 1000 →
      (k < ps.length →
          ((SnakeTail.new entityId color ownerScale).pushHistoryAll ps).getHistoryValue k =
            some (ps.getD (ps.length - 1 - k) ⟨0, 0, 0⟩)) ∧
      (ps.length ≤ k →
          ((SnakeTail.new entityId color ownerScale).pushHistoryAll ps).getHistoryValue k =
            none) := by
  intro entityId color ownerScale ps k hlen
  obtain ⟨imax, ihead, icount, iwrite, _⟩ :=
    pushAll_invariant ps (SnakeTail.new entityId color ownerScale) rfl
      (by simp [SnakeTail.new]) (by simp [SnakeTail.new]; omega)
  have hhead0 : (SnakeTail.new entityId color ownerScale).historyHead = 0 := rfl
  have hcount0 : (SnakeTail.new entityId color ownerScale).historyCount = 0 := rfl
  rw [hhead0] at ihead
  rw [hcount0] at icount
  constructor
  · intro hk
    have hcnt : ¬ ((SnakeTail.new entityId color ownerScale).pushHistoryAll ps).historyCount ≤ k := by
      rw [icount]; omega
    have hslot :
        (((SnakeTail.new entityId color ownerScale).pushHistoryAll ps).historyHead +
            ((SnakeTail.new entityId color ownerScale).pushHistoryAll ps).maxHistoryLength - k) %
          ((SnakeTail.new entityId color ownerScale).pushHistoryAll ps).maxHistoryLength =
        (0 + (ps.length - 1 - k) + 1) % 1000 := by
      rw [ihead, imax]
      omega
    have hw := iwrite (ps.length - 1 - k) (by omega)
    rw [hhead0] at hw
    simp only [SnakeTail.getHistoryValue, SnakeTail.getHistoryPosition]
    rw [if_neg hcnt]
    simp only [Option.map_some']
    rw [hslot, hw]
    rfl
  · intro hk
    have hcnt : ((SnakeTail.new entityId color ownerScale).pushHistoryAll ps).historyCount ≤ k := by
      rw [icount]; omega
    simp [SnakeTail.getHistoryValue, SnakeTail.getHistoryPosition, hcnt]

/-- Witness for C6: three pushed positions, one in-range read and one
out-of-range read. -/
theorem history_read_correct_witness :
    ([(⟨1, 0, 0⟩ : Vec3), ⟨2, 0, 0⟩, ⟨3, 0, 0⟩].length ≤ 1000 ∧ 1 < [(⟨1, 0, 0⟩ : Vec3), ⟨2, 0, 0⟩, ⟨3, 0, 0⟩].length) ∧
    ((SnakeTail.new "player" 0 none).pushHistoryAll
        [⟨1, 0, 0⟩, ⟨2, 0, 0⟩, ⟨3, 0, 0⟩]).getHistoryValue 1 =
      some (([(⟨1, 0, 0⟩ : Vec3), ⟨2, 0, 0⟩, ⟨3, 0, 0⟩]).getD
        ([(⟨1, 0, 0⟩ : Vec3), ⟨2, 0, 0⟩, ⟨3, 0, 0⟩].length - 1 - 1) ⟨0, 0, 0⟩) ∧
    ((SnakeTail.new "player" 0 none).pushHistoryAll
        [⟨1, 0, 0⟩, ⟨2, 0, 0⟩, ⟨3, 0, 0⟩]).getHistoryValue 5 = none :=
  ⟨⟨by decide, by decide⟩,
    (history_read_correct "player" 0 none [⟨1, 0, 0⟩, ⟨2, 0, 0⟩, ⟨3, 0, 0⟩] 1
      (by decide)).1 (by decide),
    (history_read_correct "player" 0 none [⟨1, 0, 0⟩, ⟨2, 0, 0⟩, ⟨3, 0, 0⟩] 5
      (by decide)).2 (by decide)⟩

/-! ## C2 — pickup consumption idempotence -/

/-- C2: when `onCollect` reports `consumed` for a resolved entry during
`processCollisions`, the loop body disposes that instance, publishes one
`pickup:collected` event and deletes the handle from its type's active
map; any entry whose handle no longer resolves is a complete no-op (no
`onCollect` call, no event, state unchanged); and a handle that is absent
from a type's active map stays absent across any further loop iteration,
so a later queued collision carrying the stale handle has no effect. -/
theorem processCollisions_consumed_idempotent :
    (∀ (handlers : List (String × MHandler)) (s : MgrState) (e : MEntry)
        (handler : MHandler) (am : List (ℕ × MInstance)) (inst : MInstance),
      alistLookup handlers e.ptype = some handler →
      alistLookup s.instances e.ptype = some am →
      alistLookup am e.handle = some inst →
      (handler.onCollect e.entityId inst).consumed = true →
      (stepEntry handlers s e).disposed = [inst] ∧
      (stepEntry handlers s e).events =
        [GEvent.pickupCollected e.ptype e.entityId inst.meshPos] ∧
      lookupInstance (stepEntry handlers s e).st e.ptype e.handle = none) ∧
    (∀ (handlers : List (String × MHandler)) (s : MgrState) (e : MEntry),
      lookupInstance s e.ptype e.handle = none →
      stepEntry handlers s e = ⟨s, [], [], []⟩) ∧
    (∀ (handlers : List (String × MHandler)) (s : MgrState) (e : MEntry)
        (ptype : String) (handle : ℕ),
      lookupInstance s ptype handle = none →
      lookupInstance (stepEntry handlers s e).st ptype handle = none) := by
  refine ⟨?_, ?_, ?_⟩
  · intro handlers s e handler am inst hh ha hi hc
    have hstep : stepEntry handlers s e =
        ⟨{ s with instances := alistInsert s.instances e.ptype (alistErase am e.handle) },
          [GEvent.pickupCollected e.ptype e.entityId inst.meshPos], [e], [inst]⟩ := by
      simp [stepEntry, hh, ha, hi, hc]
    rw [hstep]
    refine ⟨rfl, rfl, ?_⟩
    simp only [lookupInstance, alistLookup_insert]
    exact alistLookup_erase am e.handle
  · intro handlers s e hnone
    cases hh : alistLookup handlers e.ptype with
    | none => simp [stepEntry, hh]
    | some handler =>
      cases ha : alistLookup s.instances e.ptype with
      | none => simp [stepEntry, hh, ha]
      | some am =>
        have hi : alistLookup am e.handle = none := by
          simpa [lookupInstance, ha] using hnone
        simp [stepEntry, hh, ha, hi]
  · intro handlers s e ptype handle hnone
    cases hh : alistLookup handlers e.ptype with
    | none => simpa [stepEntry, hh] using hnone
    | some handler =>
      cases ha : alistLookup s.instances e.ptype with
      | none => simpa [stepEntry, hh, ha] using hnone
      | some am =>
        cases hi : alistLookup am e.handle with
        | none => simpa [stepEntry, hh, ha, hi] using hnone
        | some inst =>
          have hafter :
              lookupInstance
                ({ s with instances :=
                    alistInsert s.instances e.ptype (alistErase am e.handle) } : MgrState)
                ptype handle = none := by
            by_cases hp : ptype = e.ptype
            · subst hp
              simp only [lookupInstance, ha] at hnone
              simp only [lookupInstance, alistLookup_insert]
              by_cases hhd : handle = e.handle
              · subst hhd; exact alistLookup_erase am e.handle
              · rw [alistLookup_erase_ne am e.handle handle hhd]
                exact hnone
            · simp only [lookupInstance] at hnone ⊢
              rw [alistLookup_insert_ne s.instances e.ptype ptype _ hp]
              exact hnone
          by_cases hc : (handler.onCollect e.entityId inst).consumed = true
          · simpa [stepEntry, hh, ha, hi, hc] using hafter
          · cases hd : (handler.onCollect e.entityId inst).deferred with
            | none => simpa [stepEntry, hh, ha, hi, hc, hd] using hnone
            | some d => simpa [stepEntry, hh, ha, hi, hc, hd] using hafter

/-- Witness for C2: a consumed coin at handle 7, then the stale handle. -/
theorem processCollisions_consumed_idempotent_witness :
    (alistLookup handlersW "coin" = some consumeHandlerW ∧
      alistLookup mgrW.instances "coin" = some [(7, ⟨some ⟨1, 2, 3⟩⟩)] ∧
      alistLookup [((7 : ℕ), (⟨some ⟨1, 2, 3⟩⟩ : MInstance))] (7 : ℕ) = some ⟨some ⟨1, 2, 3⟩⟩ ∧
      (consumeHandlerW.onCollect "player" ⟨some ⟨1, 2, 3⟩⟩).consumed = true) ∧
    ((stepEntry handlersW mgrW entryW).disposed = [⟨some ⟨1, 2, 3⟩⟩] ∧
      (stepEntry handlersW mgrW entryW).events =
        [GEvent.pickupCollected "coin" "player" (some ⟨1, 2, 3⟩)] ∧
      lookupInstance (stepEntry handlersW mgrW entryW).st "coin" 7 = none) ∧
    lookupInstance (stepEntry handlersW mgrW entryW).st entryW.ptype entryW.handle = none ∧
    stepEntry handlersW (stepEntry handlersW mgrW entryW).st entryW = ⟨(stepEntry handlersW mgrW entryW).st, [], [], []⟩ :=
  ⟨⟨rfl, rfl, rfl, rfl⟩,
    processCollisions_consumed_idempotent.1 handlersW mgrW entryW consumeHandlerW
      [(7, ⟨some ⟨1, 2, 3⟩⟩)] ⟨some ⟨1, 2, 3⟩⟩ rfl rfl rfl rfl,
    (processCollisions_consumed_idempotent.1 handlersW mgrW entryW consumeHandlerW
      [(7, ⟨some ⟨1, 2, 3⟩⟩)] ⟨some ⟨1, 2, 3⟩⟩ rfl rfl rfl rfl).2.2,
    processCollisions_consumed_idempotent.2.1 handlersW (stepEntry handlersW mgrW entryW).st entryW
      ((processCollisions_consumed_idempotent.1 handlersW mgrW entryW consumeHandlerW
        [(7, ⟨some ⟨1, 2, 3⟩⟩)] ⟨some ⟨1, 2, 3⟩⟩ rfl rfl rfl rfl).2.2)⟩

/-! ## C3 — collision-queue batching -/

/-- C3: `queueCollision` only appends to the collision queue (instances and
deferred actions untouched, no handler invoked); one `processCollisions`
call walks exactly the entries that were queued — the loop body invokes
`onCollect` exactly when the entry's handler, active map and instance all
resolve, the recorded calls form a sublist of the queue — and the
collision queue is empty when `processCollisions` returns. -/
theorem processCollisions_batching :
    (∀ (s : MgrState) (e : MEntry),
      queueCollision s e =
        { instances := s.instances, collisionQueue := s.collisionQueue ++ [e],
          deferredActions := s.deferredActions }) ∧
    (∀ (handlers : List (String × MHandler)) (s : MgrState),
      (processCollisions handlers s).st.collisionQueue = [] ∧
      (processCollisions handlers s).calls = (processEntries handlers s s.collisionQueue).calls) ∧
    (∀ (handlers : List (String × MHandler)) (s : MgrState) (e : MEntry),
      (entryResolves handlers s.instances e = true → (stepEntry handlers s e).calls = [e]) ∧
      (entryResolves handlers s.instances e = false → stepEntry handlers s e = ⟨s, [], [], []⟩)) ∧
    (∀ (handlers : List (String × MHandler)) (s : MgrState) (es : List MEntry),
      (processEntries handlers s es).calls.Sublist es) := by
  refine ⟨?_, ?_, ?_, ?_⟩
  · intro s e
    rfl
  · intro handlers s
    exact ⟨rfl, rfl⟩
  · intro handlers s e
    constructor
    · intro hres
      simp only [entryResolves, Bool.and_eq_true, Option.isSome_iff_exists] at hres
      obtain ⟨⟨handler, hh⟩, hrest⟩ := hres
      cases ha : alistLookup s.instances e.ptype with
      | none => rw [ha] at hrest; simp at hrest
      | some am =>
        rw [ha] at hrest
        simp only [Option.isSome_iff_exists] at hrest
        obtain ⟨inst, hi⟩ := hrest
        by_cases hc : (handler.onCollect e.entityId inst).consumed = true
        · simp [stepEntry, hh, ha, hi, hc]
        · cases hd : (handler.onCollect e.entityId inst).deferred with
          | none => simp [stepEntry, hh, ha, hi, hc, hd]
          | some d => simp [stepEntry, hh, ha, hi, hc, hd]
    · intro hres
      simp only [entryResolves, Bool.and_eq_false_iff] at hres
      cases hres with
      | inl h =>
        cases hh : alistLookup handlers e.ptype with
        | none => simp [stepEntry, hh]
        | some handler => rw [hh] at h; simp at h
      | inr h =>
        cases hh : alistLookup handlers e.ptype with
        | none => simp [stepEntry, hh]
        | some handler =>
          cases ha : alistLookup s.instances e.ptype with
          | none => simp [stepEntry, hh, ha]
          | some am =>
            cases hi : alistLookup am e.handle with
            | none => simp [stepEntry, hh, ha, hi]
            | some inst =>
              exfalso
              simp only [ha, hi, Option.isSome_some] at h
              exact absurd h (by simp)
  · intro handlers s es
    induction es generalizing s with
    | nil => simp [processEntries]
    | cons e es ih =>
      have hcalls : (stepEntry handlers s e).calls = [] ∨ (stepEntry handlers s e).calls = [e] := by
        cases hh : alistLookup handlers e.ptype with
        | none => left; simp [stepEntry, hh]
        | some handler =>
          cases ha : alistLookup s.instances e.ptype with
          | none => left; simp [stepEntry, hh, ha]
          | some am =>
            cases hi : alistLookup am e.handle with
            | none => left; simp [stepEntry, hh, ha, hi]
            | some inst =>
              by_cases hc : (handler.onCollect e.entityId inst).consumed = true
              · right; simp [stepEntry, hh, ha, hi, hc]
              · cases hd : (handler.onCollect e.entityId inst).deferred with
                | none => right; simp [stepEntry, hh, ha, hi, hc, hd]
                | some d => right; simp [stepEntry, hh, ha, hi, hc, hd]
      simp only [processEntries]
      cases hcalls with
      | inl h => rw [h]; simpa using List.Sublist.cons e (ih _)
      | inr h => rw [h]; simpa using List.Sublist.cons₂ e (ih _)

/-- Witness for C3: a resolving entry produces one call, a non-resolving
entry none, and the queue is empty after processing. -/
theorem processCollisions_batching_witness :
    (entryResolves handlersW mgrW.instances entryW = true ∧
      (stepEntry handlersW mgrW entryW).calls = [entryW]) ∧
    (entryResolves handlersW (stepEntry handlersW mgrW entryW).st.instances entryW = false ∧
      stepEntry handlersW (stepEntry handlersW mgrW entryW).st entryW =
        ⟨(stepEntry handlersW mgrW entryW).st, [], [], []⟩) ∧
    (processCollisions handlersW (queueCollision mgrW entryW)).st.collisionQueue = [] :=
  ⟨⟨rfl, (processCollisions_batching.2.2.1 handlersW mgrW entryW).1 rfl⟩,
   ⟨rfl, (processCollisions_batching.2.2.1 handlersW (stepEntry handlersW mgrW entryW).st entryW).2 rfl⟩,
   (processCollisions_batching.2.1 handlersW (queueCollision mgrW entryW)).1⟩

/-! ## C7 — sprint burn scenario -/

theorem clampDelta_bounds (raw : ℚ) : 0 < clampDelta raw ∧ clampDelta raw ≤ 1/10 := by
  unfold clampDelta
  by_cases h1 : raw > 1/10
  · norm_num [h1]
  · by_cases h2 : raw ≤ 0
    · norm_num [h1, h2]
    · norm_num [h1, h2]
      push_neg at h1 h2
      exact ⟨h2, h1⟩

theorem removeLastSegments_one_length (t : SnakeTail) (h : 0 < t.getLength) :
    (t.removeLastSegments 1).2.getLength = t.getLength - 1 := by
  have hne : t.segments.isEmpty = false := by
    cases hs : t.segments with
    | nil =>
      rw [SnakeTail.getLength, hs] at h
      simp at h
    | cons a l => rfl
  simp [SnakeTail.removeLastSegments, hne, SnakeTail.getLength, List.length_dropLast]

theorem burnEvents_append (a b : List GEvent) :
    burnEvents (a ++ b) = burnEvents a ++ burnEvents b := by
  simp [burnEvents, List.filter_append]

/-- Behaviour of a continuous sprint: as long as every tick's delta stays
within the burn interval and the tail is long enough never to run dry, the
run performs some number `b` of burns, leaves `burnTimer` equal to the
elapsed time minus `b` burn intervals (still inside `[0, interval)`),
shortens the tail by `b`, and emits exactly the `b` matching `tail:burned`
events with descending `newLength`. -/
theorem sprintRun_burn_spec :
    ∀ (dts : List ℚ) (t0 : ℚ) (r : ℕ) (tl : SnakeTail),
      (∀ d ∈ dts, 0 ≤ d ∧ d ≤ SPRINT_BURN_INTERVAL) →
      0 ≤ t0 → t0 < SPRINT_BURN_INTERVAL →
      t0 + dts.sum < SPRINT_BURN_INTERVAL * tl.getLength →
      ∃ b : ℕ,
        (sprintRun ⟨t0, r⟩ (some tl) dts).1.burnTimer =
          t0 + dts.sum - SPRINT_BURN_INTERVAL * b ∧
        0 ≤ (sprintRun ⟨t0, r⟩ (some tl) dts).1.burnTimer ∧
        (sprintRun ⟨t0, r⟩ (some tl) dts).1.burnTimer < SPRINT_BURN_INTERVAL ∧
        optTailLength (sprintRun ⟨t0, r⟩ (some tl) dts).2.1 = tl.getLength - b ∧
        b ≤ tl.getLength ∧
        burnEvents (sprintRun ⟨t0, r⟩ (some tl) dts).2.2 =
          (List.range b).map (fun i => GEvent.tailBurned "player" 1 (tl.getLength - 1 - i)) := by
  intro dts
  induction dts with
  | nil =>
    intro t0 r tl _ ht0 ht1 _
    refine ⟨0, by simp [sprintRun], by simpa [sprintRun] using ht0,
      by simpa [sprintRun] using ht1, by simp [sprintRun, optTailLength],
      by simp, by simp [sprintRun, burnEvents]⟩
  | cons d dts ih =>
    intro t0 r tl hd ht0 ht1 hbudget
    have hd0 : 0 ≤ d ∧ d ≤ SPRINT_BURN_INTERVAL := hd d (by simp)
    have hdrest : ∀ x ∈ dts, 0 ≤ x ∧ x ≤ SPRINT_BURN_INTERVAL := fun x hx => hd x (by simp [hx])
    have hsum0 : 0 ≤ dts.sum := List.sum_nonneg (fun x hx => (hdrest x hx).1)
    have hsumcons : (d :: dts).sum = d + dts.sum := by simp
    have hlenpos : 0 < tl.getLength := by
      by_contra hl
      push_neg at hl
      interval_cases h : tl.getLength
      · rw [hsumcons] at hbudget
        simp only [SPRINT_BURN_INTERVAL, Nat.cast_zero, mul_zero] at hbudget
        have := hd0.1
        linarith
    have hne : tl.segments ≠ [] := by
      simp only [SnakeTail.getLength] at hlenpos
      exact List.ne_nil_of_length_pos hlenpos
    by_cases hbt : SPRINT_BURN_INTERVAL ≤ t0 + d
    · -- a burn happens this tick
      have hstep : updateSprint true d ⟨t0, r⟩ (some tl) =
          ({ burnTimer := t0 + d - SPRINT_BURN_INTERVAL, run := 1 },
            some (tl.removeLastSegments 1).2,
            [GEvent.tailBurned "player" 1 ((tl.removeLastSegments 1).2.getLength),
             GEvent.entitySprinting "player" true]) := by
        simp [updateSprint, hlenpos, hbt]
      have hlen' : (tl.removeLastSegments 1).2.getLength = tl.getLength - 1 :=
        removeLastSegments_one_length tl hlenpos
      have hcast : ((tl.getLength - 1 : ℕ) : ℚ) = (tl.getLength : ℚ) - 1 := by
        push_cast [Nat.cast_sub (by omega : 1 ≤ tl.getLength)]
        ring
      obtain ⟨b', hb1, hb2, hb3, hb4, hb5, hb6⟩ :=
        ih (t0 + d - SPRINT_BURN_INTERVAL) 1 (tl.removeLastSegments 1).2 hdrest
          (by linarith)
          (by have h1 := hd0.2
              have h2 := ht1
              simp only [SPRINT_BURN_INTERVAL] at h1 h2 ⊢
              linarith)
          (by rw [hlen', hcast]
              rw [hsumcons] at hbudget
              simp only [SPRINT_BURN_INTERVAL] at hbudget ⊢
              linarith)
      rw [hlen'] at hb4 hb5 hb6
      refine ⟨b' + 1, ?_, ?_, ?_, ?_, by omega, ?_⟩
      · simp only [sprintRun, hstep, hsumcons]
        rw [hb1]
        push_cast
        ring
      · simp only [sprintRun, hstep]
        exact hb2
      · simp only [sprintRun, hstep]
        exact hb3
      · simp only [sprintRun, hstep]
        rw [hb4]
        omega
      · simp only [sprintRun, hstep]
        rw [burnEvents_append, hb6, hlen']
        have hhead : burnEvents
            [GEvent.tailBurned "player" 1 (tl.getLength - 1),
             GEvent.entitySprinting "player" true] =
            [GEvent.tailBurned "player" 1 (tl.getLength - 1)] := by
          simp [burnEvents, List.filter]
        rw [hhead, List.range_succ_eq_map]
        simp only [List.map_cons, List.map_map, Nat.sub_zero]
        refine congrArg₂ List.cons rfl ?_
        refine List.map_congr_left (fun i hi => ?_)
        simp only [Function.comp_apply]
        congr 1
        omega
    · -- no burn this tick
      push_neg at hbt
      have hstep : updateSprint true d ⟨t0, r⟩ (some tl) =
          ({ burnTimer := t0 + d, run := 1 }, some tl,
            [GEvent.entitySprinting "player" true]) := by
        simp [updateSprint, hlenpos, not_le.mpr hbt]
      obtain ⟨b', hb1, hb2, hb3, hb4, hb5, hb6⟩ :=
        ih (t0 + d) 1 tl hdrest (by linarith [hd0.1]) hbt
          (by rw [hsumcons] at hbudget; linarith)
      refine ⟨b', ?_, ?_, ?_, ?_, hb5, ?_⟩
      · simp only [sprintRun, hstep, hsumcons]
        rw [hb1]
        ring
      · simp only [sprintRun, hstep]
        exact hb2
      · simp only [sprintRun, hstep]
        exact hb3
      · simp only [sprintRun, hstep]
        exact hb4
      · simp only [sprintRun, hstep]
        rw [burnEvents_append, hb6]
        have hhead : burnEvents [GEvent.entitySprinting "player" true] = [] := by
          simp [burnEvents, List.filter]
        rw [hhead]
        rfl

/-- C7: an entity with tail length 5 that sprints continuously over game
loop update ticks (whose per-tick delta-times have passed the loop's clamp)
summing to 3.0 seconds, at the default 1.5-second burn interval and with no
regrowth, loses exactly two tail segments, ends with tail length 3, and
emits exactly two `tail:burned` events whose `newLength` fields are 4 and
then 3. -/
theorem sprint_burn_scenario :
    ∀ (raws : List ℚ) (tl : SnakeTail),
      tl.getLength = 5 →
      (raws.map clampDelta).sum = 3 →
      optTailLength (sprintRun ⟨0, 0⟩ (some tl) (raws.map clampDelta)).2.1 = 3 ∧
      burnEvents (sprintRun ⟨0, 0⟩ (some tl) (raws.map clampDelta)).2.2 =
        [GEvent.tailBurned "player" 1 4, GEvent.tailBurned "player" 1 3] := by
  intro raws tl hlen hsum
  have hbounds : ∀ d ∈ raws.map clampDelta, 0 ≤ d ∧ d ≤ SPRINT_BURN_INTERVAL := by
    intro d hdm
    simp only [List.mem_map] at hdm
    obtain ⟨raw, _, hre⟩ := hdm
    have hcb := clampDelta_bounds raw
    rw [← hre]
    refine ⟨le_of_lt hcb.1, ?_⟩
    simp only [SPRINT_BURN_INTERVAL]
    linarith [hcb.2]
  obtain ⟨b, hb1, hb2, hb3, hb4, hb5, hb6⟩ :=
    sprintRun_burn_spec (raws.map clampDelta) 0 0 tl hbounds le_rfl
      (by norm_num [SPRINT_BURN_INTERVAL])
      (by rw [hsum, hlen]; norm_num [SPRINT_BURN_INTERVAL])
  rw [hsum] at hb1
  rw [hb1] at hb2 hb3
  have hb2' : (b : ℚ) ≤ 2 := by
    simp only [SPRINT_BURN_INTERVAL] at hb2
    linarith
  have hb1' : (1 : ℚ) < b := by
    simp only [SPRINT_BURN_INTERVAL] at hb3
    linarith
  have hbeq : b = 2 := by
    have h1 : b ≤ 2 := by exact_mod_cast hb2'
    have h2 : 1 < b := by exact_mod_cast hb1'
    omega
  subst hbeq
  refine ⟨by rw [hb4, hlen], ?_⟩
  rw [hb6, hlen]
  decide

/-- Witness for C7: thirty clamped ticks of 0.1 seconds each. -/
theorem sprint_burn_scenario_witness :
    (tailLen5.getLength = 5 ∧ ((List.replicate 30 (1/10 : ℚ)).map clampDelta).sum = 3) ∧
    optTailLength
        (sprintRun ⟨0, 0⟩ (some tailLen5)
          ((List.replicate 30 (1/10 : ℚ)).map clampDelta)).2.1 = 3 ∧
    burnEvents
        (sprintRun ⟨0, 0⟩ (some tailLen5)
          ((List.replicate 30 (1/10 : ℚ)).map clampDelta)).2.2 =
      [GEvent.tailBurned "player" 1 4, GEvent.tailBurned "player" 1 3] :=
  ⟨⟨by decide, by
      have hc : clampDelta (1/10 : ℚ) = 1/10 := by norm_num [clampDelta]
      rw [List.map_replicate, hc, List.sum_replicate]
      norm_num⟩,
    sprint_burn_scenario (List.replicate 30 (1/10 : ℚ)) tailLen5 (by decide)
      (by
        have hc : clampDelta (1/10 : ℚ) = 1/10 := by norm_num [clampDelta]
        rw [List.map_replicate, hc, List.sum_replicate]
        norm_num)⟩

/-! ## C8 — bot anti-circling -/

theorem attackEntryStep_fields (bot : BotState) (ntd : ℚ) :
    (attackEntryStep bot ntd).angle = bot.angle ∧
    (attackEntryStep bot ntd).prevAngle = bot.prevAngle ∧
    (attackEntryStep bot ntd).spinAccum = bot.spinAccum := by
  unfold attackEntryStep
  split_ifs <;> simp

theorem spinDetectStep_breakout (bot : BotState) (rk rw : ℚ)
    (h : MATH_PI * 4 < spinTotalOfTick bot.spinAccum bot.angle bot.prevAngle) :
    (spinDetectStep bot rk rw).aiState = AIState.WANDER ∧
    (spinDetectStep bot rk rw).spinAccum = 0 := by
  unfold spinDetectStep
  simp only []
  rw [if_pos]
  · exact ⟨rfl, rfl⟩
  · simpa [spinTotalOfTick] using h

theorem spinDetectStep_spinAccum (bot : BotState) (rk rw : ℚ) :
    (spinDetectStep bot rk rw).spinAccum =
      if MATH_PI * 4 < spinTotalOfTick bot.spinAccum bot.angle bot.prevAngle then 0
      else spinTotalOfTick bot.spinAccum bot.angle bot.prevAngle := by
  unfold spinDetectStep spinTotalOfTick
  simp only []
  split_ifs <;> rfl

theorem spinDetectStep_spin_le (bot : BotState) (rk rw : ℚ) :
    (spinDetectStep bot rk rw).spinAccum ≤ MATH_PI * 4 := by
  rw [spinDetectStep_spinAccum]
  split_ifs with h
  · norm_num [MATH_PI]
  · push_neg at h
    exact h

theorem attackCapStep_fields (bot : BotState) (rw2 : ℚ) :
    (attackCapStep bot rw2).spinAccum = bot.spinAccum ∧
    (bot.aiState = AIState.WANDER → (attackCapStep bot rw2).aiState = AIState.WANDER) := by
  unfold attackCapStep
  split_ifs with h
  · exact ⟨rfl, fun _ => rfl⟩
  · exact ⟨rfl, fun hw => hw⟩

theorem sprintBurnStep_fields (bot : BotState) (dt : ℚ) :
    (sprintBurnStep bot dt).1.spinAccum = bot.spinAccum ∧
    (sprintBurnStep bot dt).1.aiState = bot.aiState := by
  unfold sprintBurnStep
  simp only []
  split_ifs <;> simp

/-- C8: each AI tick folds the absolute wrapped heading delta into the
decayed spin accumulator; whenever that total exceeds 4π during the tick,
the bot ends the tick in state `WANDER` with accumulator 0, and in every
case the accumulator is at most 4π at the end of the tick. -/
theorem bot_spin_breakout :
    ∀ (bot : BotState) (dt ntd rngKick rngWander rngWander2 : ℚ),
      (MATH_PI * 4 < spinTotalOfTick bot.spinAccum bot.angle bot.prevAngle →
        (updateAIEnd bot dt ntd rngKick rngWander rngWander2).1.aiState = AIState.WANDER ∧
        (updateAIEnd bot dt ntd rngKick rngWander rngWander2).1.spinAccum = 0) ∧
      (updateAIEnd bot dt ntd rngKick rngWander rngWander2).1.spinAccum ≤ MATH_PI * 4 := by
  intro bot dt ntd rk rw rw2
  obtain ⟨ha1, ha2, ha3⟩ := attackEntryStep_fields bot ntd
  have hcap := attackCapStep_fields (spinDetectStep (attackEntryStep bot ntd) rk rw) rw2
  have hburn := sprintBurnStep_fields
    (attackCapStep (spinDetectStep (attackEntryStep bot ntd) rk rw) rw2) dt
  constructor
  · intro h
    have h' : MATH_PI * 4 <
        spinTotalOfTick (attackEntryStep bot ntd).spinAccum (attackEntryStep bot ntd).angle
          (attackEntryStep bot ntd).prevAngle := by
      rw [ha1, ha2, ha3]
      exact h
    obtain ⟨hw, hz⟩ := spinDetectStep_breakout (attackEntryStep bot ntd) rk rw h'
    constructor
    · rw [updateAIEnd, hburn.2]
      exact hcap.2 hw
    · rw [updateAIEnd, hburn.1, hcap.1, hz]
  · rw [updateAIEnd, hburn.1, hcap.1]
    exact spinDetectStep_spin_le (attackEntryStep bot ntd) rk rw

/-- Witness for C8: a bot whose accumulator already reads 20 (the tick's
decayed total 19 exceeds 4π ≈ 12.566). -/
theorem bot_spin_breakout_witness :
    MATH_PI * 4 < spinTotalOfTick botW.spinAccum botW.angle botW.prevAngle ∧
    ((updateAIEnd botW 0 0 0 0 0).1.aiState = AIState.WANDER ∧
      (updateAIEnd botW 0 0 0 0 0).1.spinAccum = 0) ∧
    (updateAIEnd botW 0 0 0 0 0).1.spinAccum ≤ MATH_PI * 4 :=
  ⟨by norm_num [spinTotalOfTick, MATH_PI, botW],
    (bot_spin_breakout botW 0 0 0 0 0).1
      (by norm_num [spinTotalOfTick, MATH_PI, botW]),
    (bot_spin_breakout botW 0 0 0 0 0).2⟩

/-! ## C1 — ring clean-pass deferred reward -/

theorem ringUpdateDeferred_addCalls (d : RingDeferred) (tail : Option SnakeTail) (dt : ℚ)
    (pos : Vec3) :
    (ringUpdateDeferred d tail dt pos).addSegmentCalls = 0 ∨
    (ringUpdateDeferred d tail dt pos).addSegmentCalls = RING_STAMINA_PENALTY := by
  unfold ringUpdateDeferred
  rcases tail with _ | t <;> simp only [] <;> split_ifs <;> simp

theorem ringRun_calls_mem :
    ∀ (envs : List (ℚ × Vec3)) (d : RingDeferred) (tail : Option SnakeTail) (k n : ℕ),
      (ringRun d tail envs).get? k = some n →
      n = 0 ∨ n = RING_STAMINA_PENALTY := by
  intro envs
  induction envs with
  | nil =>
    intro d tail k n h
    simp [ringRun] at h
  | cons env rest ih =>
    intro d tail k n h
    obtain ⟨dt, pos⟩ := env
    simp only [ringRun] at h
    cases k with
    | zero =>
      simp only [List.get?_cons_zero, Option.some_inj] at h
      rw [← h]
      exact ringUpdateDeferred_addCalls d tail dt pos
    | succ k' =>
      simp only [List.get?_cons_succ] at h
      by_cases hdone : (ringUpdateDeferred d tail dt pos).done
      · rw [if_pos hdone] at h
        simp at h
      · rw [if_neg hdone] at h
        exact ih _ _ k' n h

/-- One `updateDeferred` tick from a not-yet-landed `passing` state: the
safety timer is decremented, and the tick only latches `landed` when the
entity height is below 1.2 or the decremented safety timer has run out —
it never adds segments. -/
theorem ringUpdateDeferred_passing_notLanded (d : RingDeferred) (tail : Option SnakeTail)
    (dt : ℚ) (pos : Vec3) (hmode : d.mode = "passing") (hlanded : d.landed = false)
    (hmesh : d.entityMeshPresent = true) :
    ringUpdateDeferred d tail dt pos =
      if pos.y < 6/5 ∨ d.safetyTimer - dt ≤ 0 then
        ⟨{ d with safetyTimer := d.safetyTimer - dt, landed := true }, tail, 0, [], false⟩
      else ⟨{ d with safetyTimer := d.safetyTimer - dt }, tail, 0, [], false⟩ := by
  unfold ringUpdateDeferred
  rw [hmode]
  rw [if_neg (by decide : ¬ ("passing" : String) = "airFreeze")]
  rw [if_pos (rfl : ("passing" : String) = "passing")]
  rw [hlanded]
  rw [if_pos rfl]
  simp only [hmesh, if_true]

theorem ringRun_passing_grant :
    ∀ (envs : List (ℚ × Vec3)) (d : RingDeferred) (tail : Option SnakeTail) (k n : ℕ),
      d.mode = "passing" → d.landed = false → d.entityMeshPresent = true →
      (ringRun d tail envs).get? k = some n → n ≠ 0 →
      1 ≤ k ∧ ∃ j, j ≤ k ∧ ∃ e, envs.get? j = some e ∧
        (e.2.y < 6/5 ∨ d.safetyTimer - ((envs.take (j + 1)).map Prod.fst).sum ≤ 0) := by
  intro envs
  induction envs with
  | nil =>
    intro d tail k n _ _ _ h _
    simp [ringRun] at h
  | cons env rest ih =>
    intro d tail k n hmode hlanded hmesh h hn
    obtain ⟨dt, pos⟩ := env
    simp only [ringRun] at h
    rw [ringUpdateDeferred_passing_notLanded d tail dt pos hmode hlanded hmesh] at h
    by_cases hc : pos.y < 6/5 ∨ d.safetyTimer - dt ≤ 0
    · rw [if_pos hc] at h
      simp only [] at h
      cases k with
      | zero =>
        simp only [List.get?_cons_zero, Option.some_inj] at h
        exact absurd h.symm hn
      | succ k' =>
        refine ⟨by omega, 0, by omega, (dt, pos), rfl, ?_⟩
        simpa using hc
    · rw [if_neg hc] at h
      simp only [] at h
      cases k with
      | zero =>
        simp only [List.get?_cons_zero, Option.some_inj] at h
        exact absurd h.symm hn
      | succ k' =>
        simp only [List.get?_cons_succ, if_neg (by simp : ¬ False)] at h
        have h' : (ringRun { d with safetyTimer := d.safetyTimer - dt } tail rest).get? k' =
            some n := by
          simpa using h
        obtain ⟨hk1, j', hj'le, e, hget, hcond⟩ :=
          ih { d with safetyTimer := d.safetyTimer - dt } tail k' n hmode hlanded hmesh h' hn
        refine ⟨by omega, j' + 1, by omega, e, by simpa using hget, ?_⟩
        rcases hcond with hy | ht
        · exact Or.inl hy
        · right
          have htake : (((dt, pos) :: rest).take (j' + 1 + 1)).map Prod.fst =
              dt :: ((rest.take (j' + 1)).map Prod.fst) := by
            simp
          rw [htake, List.sum_cons]
          simp only [] at ht
          linarith

/-- C1: when a ring trigger takes the clean-center airborne path (entity on
no cooldown, handle unprocessed, geometric touch-test false, entity
jumping), `onCollect` itself performs no `addSegment` call, publishes
nothing, and does return a deferred action, one in mode `passing` (not
landed, safety timer 3.0); over any subsequent `updateDeferred` trace, the only
nonzero batch of `addSegment` calls is the `RING_STAMINA_PENALTY`-sized
reward, it never occurs on the first deferred tick (hence never in the
trigger tick, which at most runs that first tick), and it occurs only at a
tick by which some environment has shown height below 1.2 or the safety
timer has been exhausted. -/
theorem ring_cleanPass_deferred_reward :
    ∀ (s : RingHandlerState) (entityId : String) (inst : RingInstance)
      (tailPresent : Bool) (meshPos : Vec3),
      (alistLookup s.hitCooldowns entityId).isSome = false →
      ringAlreadyProcessed s inst.body = false →
      resolveRingEntity s entityId = (tailPresent, some meshPos) →
      6/5 < meshPos.y →
      ¬ isTouchingTorusBody (some meshPos) inst.meshPos inst.meshRotY →
      (ringOnCollect s entityId inst).1.consumed = false ∧
      (ringOnCollect s entityId inst).1.events = [] ∧
      ∃ d, (ringOnCollect s entityId inst).1.deferred = some d ∧
        d.mode = "passing" ∧ d.landed = false ∧ d.safetyTimer = 3 ∧
        ∀ (tail0 : Option SnakeTail) (envs : List (ℚ × Vec3)) (k n : ℕ),
          (ringRun d tail0 envs).get? k = some n → n ≠ 0 →
          n = RING_STAMINA_PENALTY ∧ 1 ≤ k ∧
          ∃ j, j ≤ k ∧ ∃ e, envs.get? j = some e ∧
            (e.2.y < 6/5 ∨ 3 - ((envs.take (j + 1)).map Prod.fst).sum ≤ 0) := by
  intro s entityId inst tailPresent meshPos h1 h2 h3 h4 h5
  have hj : (match (resolveRingEntity s entityId).2 with
      | some p => decide (6/5 < p.y)
      | none => false) = true := by
    rw [h3]
    exact decide_eq_true h4
  have hres : (ringOnCollect s entityId inst).1 =
      ⟨false,
        some { mode := "passing", landed := false, celebrateTimer := 1/5, safetyTimer := 3,
               freezeTimer := 0, timer := 0, fadeTimer := 0, entityId := entityId,
               entityMeshPresent := (resolveRingEntity s entityId).2.isSome,
               ring := { inst with body := none }, handle := inst.body },
        []⟩ := by
    unfold ringOnCollect
    rw [if_neg (by rw [h1]; exact Bool.false_ne_true)]
    rw [if_neg (by rw [h2]; exact Bool.false_ne_true)]
    simp only []
    rw [if_pos ⟨by rw [h3]; exact h5, hj⟩]
  have hmesh : (resolveRingEntity s entityId).2.isSome = true := by
    rw [h3]
    rfl
  refine ⟨by rw [hres], by rw [hres],
    { mode := "passing", landed := false, celebrateTimer := 1/5, safetyTimer := 3,
      freezeTimer := 0, timer := 0, fadeTimer := 0, entityId := entityId,
      entityMeshPresent := (resolveRingEntity s entityId).2.isSome,
      ring := { inst with body := none }, handle := inst.body },
    by rw [hres], rfl, rfl, rfl, ?_⟩
  intro tail0 envs k n hget hn
  have hmem := ringRun_calls_mem envs _ tail0 k n hget
  have hgrant := ringRun_passing_grant envs _ tail0 k n rfl rfl hmesh hget hn
  refine ⟨by tauto, hgrant.1, hgrant.2⟩

/-- Witness for C1: the player at position (0, 3, 0) passing through the
open center of a ring at (0, 4.5, 0); a two-tick trace in which the player
lands on the first tick and the reward fires on the second. -/
theorem ring_cleanPass_deferred_reward_witness :
    ((alistLookup ringStateW.hitCooldowns "player").isSome = false ∧
      ringAlreadyProcessed ringStateW ringInstW.body = false ∧
      resolveRingEntity ringStateW "player" = (true, some ⟨0, 3, 0⟩) ∧
      (6/5 : ℚ) < (3 : ℚ) ∧
      ¬ isTouchingTorusBody (some ⟨0, 3, 0⟩) ringInstW.meshPos ringInstW.meshRotY) ∧
    ((ringOnCollect ringStateW "player" ringInstW).1.consumed = false ∧
      (ringOnCollect ringStateW "player" ringInstW).1.events = [] ∧
      ∃ d, (ringOnCollect ringStateW "player" ringInstW).1.deferred = some d ∧
        d.mode = "passing" ∧ d.landed = false ∧ d.safetyTimer = 3 ∧
        ∀ (tail0 : Option SnakeTail) (envs : List (ℚ × Vec3)) (k n : ℕ),
          (ringRun d tail0 envs).get? k = some n → n ≠ 0 →
          n = RING_STAMINA_PENALTY ∧ 1 ≤ k ∧
          ∃ j, j ≤ k ∧ ∃ e, envs.get? j = some e ∧
            (e.2.y < 6/5 ∨ 3 - ((envs.take (j + 1)).map Prod.fst).sum ≤ 0)) := by
  have htouch : ¬ isTouchingTorusBody (some ⟨0, 3, 0⟩) ringInstW.meshPos ringInstW.meshRotY := by
    intro h
    simp only [ringInstW, isTouchingTorusBody] at h
    have h93 : Real.sqrt 9 = 3 := by
      rw [show (9 : ℝ) = 3^2 by norm_num]
      exact Real.sqrt_sq (by norm_num)
    have h42 : Real.sqrt 4 = 2 := by
      rw [show (4 : ℝ) = 2^2 by norm_num]
      exact Real.sqrt_sq (by norm_num)
    norm_num [Real.cos_zero, Real.sin_zero] at h
    rw [h93, h42] at h
    norm_num at h
    rw [abs_of_nonneg (by norm_num : (0:ℝ) ≤ 3/2)] at h
    linarith
  exact ⟨⟨rfl, rfl, rfl, by norm_num, htouch⟩,
    ring_cleanPass_deferred_reward ringStateW "player" ringInstW true ⟨0, 3, 0⟩
      rfl rfl rfl (by norm_num) htouch⟩
